import Mathlib

/-!
Verification of the react-sketch-canvas sketch state machine and rendering
composition engine.

The definitions below are a shallow embedding of the TypeScript sources
`src/libs/react-sketch-canvas/src/lib/ReactSketchCanvas/index.tsx` (the
`ReactSketchCanvas` controller component) and `src/src/Canvas/index.tsx`
(the `Canvas` rendering component).  Numeric coordinates are modelled as
rationals, timestamps as integers, and the `immer`-based `setState`
mutations as pure state transformers.  The `onUpdate` callback invocations
are modelled as a list of emitted events returned next to the new state.
-/

/-- A 2-D point, source type `Point = \x7b x: number; y: number \x7d`. -/
structure Point where
  x : Rat
  y : Rat
deriving DecidableEq, Repr

/-- The drawing mode enum `CanvasMode` with members none, pen, eraser, text. -/
inductive CanvasMode where
  | none
  | pen
  | eraser
  | text
deriving DecidableEq, Repr

/-- Modelled from the spec: the `CanvasMode` enum declaration lives in the
types module, which is not among the provided source files, so the numeric
value of each member is unknown.  The code tests modes for JavaScript
truthiness (`draft.drawMode ? ... : ...` in `handlePointerDown` and
`!path.drawMode` in the `pathGroups` reduce), and the spec's design notes
state that the falsy (zero) value marks an eraser stroke; consistently,
`Canvas` treats `!path.drawMode` and `path.drawMode === CanvasMode.eraser`
as equivalent.  So `eraser` is the unique falsy member. -/
def CanvasMode.truthy : CanvasMode → Bool
  | .eraser => false
  | _ => true

/-- A stroke, source type `CanvasPath`: draw mode, styling, the ordered point
list, and the optional timestamps recorded when `withTimestamp` is set. -/
structure CanvasPath where
  drawMode : CanvasMode
  strokeColor : String
  strokeWidth : Rat
  paths : List Point
  startTimestamp : Option Int
  endTimestamp : Option Int
deriving DecidableEq, Repr

/-- A text label, source type `CanvasText`. -/
structure CanvasText where
  id : Int
  text : String
  position : Point
deriving DecidableEq, Repr

/-- The controller state, source type `ReactSketchCanvasStates`. -/
structure ReactSketchCanvasStates where
  drawMode : CanvasMode
  isDrawing : Bool
  resetStack : List CanvasPath
  undoStack : List CanvasPath
  currentPaths : List CanvasPath
  currentTexts : List CanvasText
  imageScale : Rat
deriving DecidableEq, Repr

/-- The construction-time configuration relevant to the controller,
a fragment of `ReactSketchCanvasProps`. -/
structure ReactSketchCanvasProps where
  strokeColor : String
  strokeWidth : Rat
  eraserWidth : Rat
  withTimestamp : Bool
deriving DecidableEq, Repr

/-- `this.initialState` of the controller. -/
def initialState : ReactSketchCanvasStates :=
  { drawMode := CanvasMode.none
    isDrawing := false
    resetStack := []
    undoStack := []
    currentPaths := []
    currentTexts := []
    imageScale := 1 }

/-- `canonicalPathsToImage(oldPaths, imScale)`: deep-copies the stroke list
and multiplies every point coordinate by `imScale`. -/
def canonicalPathsToImage (oldPaths : List CanvasPath) (imScale : Rat) :
    List CanvasPath :=
  oldPaths.map fun p =>
    { p with paths := p.paths.map fun pt => { x := pt.x * imScale, y := pt.y * imScale } }

/-- `canonicalTextsToImage(oldTexts, imScale)`: deep-copies the label list
and multiplies every position coordinate by `imScale`. -/
def canonicalTextsToImage (oldTexts : List CanvasText) (imScale : Rat) :
    List CanvasText :=
  oldTexts.map fun t =>
    { t with position := { x := t.position.x * imScale, y := t.position.y * imScale } }

/-- `isDrawingMode()`: the mode is pen or eraser. -/
def isDrawingMode (s : ReactSketchCanvasStates) : Bool :=
  s.drawMode == CanvasMode.pen || s.drawMode == CanvasMode.eraser

/-- `getSketchingTime()`.  The promise executor first calls `reject` when
`withTimestamp` is not set; in JavaScript the first settlement of a promise
wins, so the later `resolve` is ignored and the call is modelled as an
`Except.error`.  Otherwise it resolves with the reduce over `currentPaths`
of `(endTimestamp ?? 0) - (startTimestamp ?? 0)`. -/
def getSketchingTime (withTimestamp : Bool) (currentPaths : List CanvasPath) :
    Except String Int :=
  if withTimestamp = false then
    Except.error "Set withTimestamp prop to get sketching time"
  else
    Except.ok (currentPaths.foldl
      (fun totalSketchingTime path =>
        totalSketchingTime + (path.endTimestamp.getD 0 - path.startTimestamp.getD 0))
      0)

/-- An externally observed event: the `onUpdate(paths, texts)` notification. -/
inductive Event where
  | update (paths : List CanvasPath) (texts : List CanvasText)
deriving DecidableEq, Repr

/-- `liftUpdatedStateUp()`: calls `onUpdate` with the current strokes and
labels scale-normalized back to scale 1 (multiplied by `1.0 / imageScale`). -/
def liftUpdatedStateUp (s : ReactSketchCanvasStates) : Event :=
  Event.update (canonicalPathsToImage s.currentPaths (1 / s.imageScale))
    (canonicalTextsToImage s.currentTexts (1 / s.imageScale))

/-- `handlePointerDown(point)`.  `now` stands for `Date.now()`, which is also
used (rounded) as the fresh label id.  Mode `none` is a no-op; mode `text`
places a label and clears the undo stack; pen and eraser begin a stroke and
clear the undo stack. -/
def handlePointerDown (pr : ReactSketchCanvasProps) (point : Point) (now : Int)
    (s : ReactSketchCanvasStates) : ReactSketchCanvasStates :=
  if isDrawingMode s = false then
    if s.drawMode = CanvasMode.none then s
    else
      { s with
        isDrawing := false
        undoStack := []
        currentTexts := s.currentTexts ++ [{ id := now, text := "Text", position := point }] }
  else
    let stroke : CanvasPath :=
      { drawMode := s.drawMode
        strokeColor := if s.drawMode.truthy then pr.strokeColor else "#000000"
        strokeWidth := if s.drawMode.truthy then pr.strokeWidth else pr.eraserWidth
        paths := [point]
        startTimestamp := if pr.withTimestamp then some now else Option.none
        endTimestamp := if pr.withTimestamp then some 0 else Option.none }
    { s with
      isDrawing := true
      undoStack := []
      currentPaths := s.currentPaths ++ [stroke] }

/-- `handlePointerMove(point)`.  When `isDrawing` is set, the code reads
`draft.currentPaths[draft.currentPaths.length - 1]` and pushes onto its
`paths`; when `currentPaths` is empty that index access yields `undefined`
and the push throws, modelled as `Option.none`. -/
def handlePointerMove (point : Point) (s : ReactSketchCanvasStates) :
    Option ReactSketchCanvasStates :=
  if s.isDrawing = false then some s
  else
    match s.currentPaths.getLast? with
    | Option.none => Option.none
    | some currentStroke =>
        some { s with
          currentPaths :=
            s.currentPaths.dropLast ++ [{ currentStroke with paths := currentStroke.paths ++ [point] }] }

/-- `handlePointerUp()`.  Ends the stroke; with timestamps enabled it pops
the last stroke and pushes it back with `endTimestamp` set to `Date.now()`
(modelled as `now`); the pop of an empty list yields `undefined` and the
push is skipped. -/
def handlePointerUp (pr : ReactSketchCanvasProps) (now : Int)
    (s : ReactSketchCanvasStates) : ReactSketchCanvasStates :=
  if s.isDrawing = false then s
  else
    let s1 := { s with isDrawing := false }
    if pr.withTimestamp = false then s1
    else
      match s1.currentPaths.getLast? with
      | Option.none => s1
      | some currentStroke =>
          { s1 with
            currentPaths :=
              s1.currentPaths.dropLast ++ [{ currentStroke with endTimestamp := some now }] }

/-- The loop body of `handleTextChange`: replace the first label whose id
matches `oldText.id` by `newText`, keeping order. -/
def replaceTextById (texts : List CanvasText) (oldId : Int) (newText : CanvasText) :
    List CanvasText :=
  match texts with
  | [] => []
  | t :: rest =>
      if t.id = oldId then newText :: rest
      else t :: replaceTextById rest oldId newText

/-- `handleTextChange(oldText, newText)`. -/
def handleTextChange (oldText newText : CanvasText) (s : ReactSketchCanvasStates) :
    ReactSketchCanvasStates :=
  { s with currentTexts := replaceTextById s.currentTexts oldText.id newText }

/-- `setMode(mode)`. -/
def setMode (mode : CanvasMode) (s : ReactSketchCanvasStates) :
    ReactSketchCanvasStates :=
  { s with drawMode := mode }

/-- `clearCanvas()`: moves `currentPaths` into `resetStack` (overwriting it)
and empties `currentPaths` and `currentTexts`.  `isDrawing` is untouched. -/
def clearCanvas (s : ReactSketchCanvasStates) : ReactSketchCanvasStates :=
  { s with
    resetStack := s.currentPaths
    currentPaths := []
    currentTexts := [] }

/-- `undo()`: when `resetStack` is non-empty, restore it wholesale into
`currentPaths` and empty it; otherwise pop the last stroke of `currentPaths`
onto `undoStack` (no-op when there is none). -/
def undo (s : ReactSketchCanvasStates) : ReactSketchCanvasStates :=
  if s.resetStack.length ≠ 0 then
    { s with
      currentPaths := s.resetStack
      resetStack := [] }
  else
    match s.currentPaths.getLast? with
    | Option.none => s
    | some lastSketchPath =>
        { s with
          currentPaths := s.currentPaths.dropLast
          undoStack := s.undoStack ++ [lastSketchPath] }

/-- `redo()` past its empty-stack early return: pop the last stroke of
`undoStack` onto `currentPaths`. -/
def redo (s : ReactSketchCanvasStates) : ReactSketchCanvasStates :=
  match s.undoStack.getLast? with
  | Option.none => s
  | some lastUndoPath =>
      { s with
        undoStack := s.undoStack.dropLast
        currentPaths := s.currentPaths ++ [lastUndoPath] }

/-- `resetCanvas()`: `setState(this.initialState)`. -/
def resetCanvas : ReactSketchCanvasStates := initialState

/-- `adjustProportion(imagescale, paths, texts)`: resets the canvas, then
stores the incoming geometry transformed into the new scale and finally
sets the mode to pen (via the `setMode` call in the completion callback). -/
def adjustProportion (imagescale : Rat) (paths : List CanvasPath)
    (texts : List CanvasText) : ReactSketchCanvasStates :=
  { initialState with
    imageScale := imagescale
    currentPaths := canonicalPathsToImage paths imagescale
    currentTexts := canonicalTextsToImage texts imagescale
    drawMode := CanvasMode.pen }

/-- `exportPaths()`: the current strokes transformed back to scale 1. -/
def exportPaths (s : ReactSketchCanvasStates) : List CanvasPath :=
  canonicalPathsToImage s.currentPaths (1 / s.imageScale)

/-- `exportTexts()`: the current labels transformed back to scale 1. -/
def exportTexts (s : ReactSketchCanvasStates) : List CanvasText :=
  canonicalTextsToImage s.currentTexts (1 / s.imageScale)

/-- `loadPaths(paths)`: transforms incoming scale-1 strokes into the current
scale and appends them. -/
def loadPaths (paths : List CanvasPath) (s : ReactSketchCanvasStates) :
    ReactSketchCanvasStates :=
  { s with currentPaths := s.currentPaths ++ canonicalPathsToImage paths s.imageScale }

/-- `loadTexts(texts)`: transforms incoming scale-1 labels into the current
scale and appends them. -/
def loadTexts (texts : List CanvasText) (s : ReactSketchCanvasStates) :
    ReactSketchCanvasStates :=
  { s with currentTexts := s.currentTexts ++ canonicalTextsToImage texts s.imageScale }

/-- A host-callable controller operation. -/
inductive Op where
  | pointerDown (point : Point) (now : Int)
  | pointerMove (point : Point)
  | pointerUp (now : Int)
  | textChange (oldText newText : CanvasText)
  | setMode (mode : CanvasMode)
  | clearCanvas
  | undo
  | redo
  | resetCanvas
  | adjustProportion (imagescale : Rat) (paths : List CanvasPath) (texts : List CanvasText)
  | loadPaths (paths : List CanvasPath)
  | loadTexts (texts : List CanvasText)
deriving DecidableEq, Repr

/-- One controller operation: the new state together with the list of
`onUpdate` notifications it emits, in order.  `Option.none` models a thrown
runtime error (only `pointerMove` can throw, see `handlePointerMove`).
Each handler passes `liftUpdatedStateUp` as `setState` callback, so a
notification carries the snapshot of the state after the mutation; the
early-return branches of the handlers emit nothing; `resetCanvas` calls
`setState(this.initialState)` with no callback and so emits nothing;
`adjustProportion` finishes by calling `setMode` and `liftUpdatedStateUp`,
which emit one notification each. -/
def applyOp (pr : ReactSketchCanvasProps) (op : Op) (s : ReactSketchCanvasStates) :
    Option (ReactSketchCanvasStates × List Event) :=
  match op with
  | .pointerDown point now =>
      if isDrawingMode s = false ∧ s.drawMode = CanvasMode.none then some (s, [])
      else
        let s' := handlePointerDown pr point now s
        some (s', [liftUpdatedStateUp s'])
  | .pointerMove point =>
      if s.isDrawing = false then some (s, [])
      else
        match handlePointerMove point s with
        | Option.none => Option.none
        | some s' => some (s', [liftUpdatedStateUp s'])
  | .pointerUp now =>
      if s.isDrawing = false then some (s, [])
      else
        let s' := handlePointerUp pr now s
        some (s', [liftUpdatedStateUp s'])
  | .textChange oldText newText =>
      let s' := handleTextChange oldText newText s
      some (s', [liftUpdatedStateUp s'])
  | .setMode mode =>
      let s' := setMode mode s
      some (s', [liftUpdatedStateUp s'])
  | .clearCanvas =>
      let s' := clearCanvas s
      some (s', [liftUpdatedStateUp s'])
  | .undo =>
      let s' := undo s
      some (s', [liftUpdatedStateUp s'])
  | .redo =>
      if s.undoStack.length = 0 then some (s, [])
      else
        let s' := redo s
        some (s', [liftUpdatedStateUp s'])
  | .resetCanvas => some (resetCanvas, [])
  | .adjustProportion imagescale paths texts =>
      let s' := adjustProportion imagescale paths texts
      some (s', [liftUpdatedStateUp s', liftUpdatedStateUp s'])
  | .loadPaths paths =>
      let s' := loadPaths paths s
      some (s', [liftUpdatedStateUp s'])
  | .loadTexts texts =>
      let s' := loadTexts texts s
      some (s', [liftUpdatedStateUp s'])

/-- Run a sequence of operations, propagating a runtime error. -/
def runOps (pr : ReactSketchCanvasProps) (s : ReactSketchCanvasStates) :
    List Op → Option ReactSketchCanvasStates
  | [] => some s
  | op :: rest =>
      match applyOp pr op s with
      | Option.none => Option.none
      | some (s', _) => runOps pr s' rest

/-! ## Sample data used by concrete scenarios and witnesses -/

/-- A pen stroke, as `handlePointerDown` builds one in pen mode. -/
def strokeA : CanvasPath :=
  { drawMode := CanvasMode.pen
    strokeColor := "red"
    strokeWidth := 4
    paths := [{ x := 1, y := 1 }, { x := 2, y := 2 }]
    startTimestamp := Option.none
    endTimestamp := Option.none }

/-- An eraser stroke overlapping `strokeA`, as `handlePointerDown` builds one
in eraser mode. -/
def strokeB : CanvasPath :=
  { drawMode := CanvasMode.eraser
    strokeColor := "#000000"
    strokeWidth := 8
    paths := [{ x := 2, y := 2 }, { x := 1, y := 1 }]
    startTimestamp := Option.none
    endTimestamp := Option.none }

/-- A sample text label. -/
def sampleLabel : CanvasText :=
  { id := 7, text := "Text", position := { x := 3, y := 5 } }

/-- Sample construction-time configuration. -/
def sampleProps : ReactSketchCanvasProps :=
  { strokeColor := "red", strokeWidth := 4, eraserWidth := 8, withTimestamp := false }

/-- The state reached after drawing `strokeA` then `strokeB`. -/
def scenarioState : ReactSketchCanvasStates :=
  { initialState with currentPaths := [strokeA, strokeB] }

/-- A state holding one stroke and one label. -/
def labeledState : ReactSketchCanvasStates :=
  { initialState with currentPaths := [strokeA], currentTexts := [sampleLabel] }

/-- A state in pen mode. -/
def penModeState : ReactSketchCanvasStates :=
  { initialState with drawMode := CanvasMode.pen }

/-! ## C1: clear followed by one undo restores the stroke list -/

/-- C1: for every state, `clearCanvas()` followed immediately by one `undo()`
restores `currentPaths` to its exact pre-clear value (the reset-restore
branch of `undo` takes priority over single-stroke undo); in the concrete
scenario `[strokeA (pen), strokeB (eraser)]` the first undo after clear
yields `currentPaths = [strokeA, strokeB]`, and a second undo yields
`currentPaths = [strokeA]` with `undoStack = [strokeB]`. -/
theorem clearCanvas_undo_restores_currentPaths (s : ReactSketchCanvasStates) :
    (undo (clearCanvas s)).currentPaths = s.currentPaths ∧
    (undo (clearCanvas scenarioState)).currentPaths = [strokeA, strokeB] ∧
    (undo (undo (clearCanvas scenarioState))).currentPaths = [strokeA] ∧
    (undo (undo (clearCanvas scenarioState))).undoStack = [strokeB] := by
  refine ⟨?_, rfl, rfl, rfl⟩
  cases h : s.currentPaths with
  | nil => simp [clearCanvas, undo, h]
  | cons a l => simp [clearCanvas, undo, h]

/-! ## C10: clear discards labels; the clear/undo pair restores only strokes -/

/-- C10: for every state with non-empty labels, `clearCanvas()` empties
`currentTexts` without saving them anywhere (`resetStack` receives only the
strokes), so an `undo()` immediately after restores only `currentPaths` and
leaves `currentTexts` empty; across the clear/undo pair every field other
than `resetStack`, `currentPaths` and `currentTexts` is unchanged. -/
theorem clearCanvas_discards_labels (s : ReactSketchCanvasStates)
    (_h : s.currentTexts ≠ []) :
    (clearCanvas s).currentTexts = [] ∧
    (clearCanvas s).resetStack = s.currentPaths ∧
    (undo (clearCanvas s)).currentTexts = [] ∧
    (undo (clearCanvas s)).currentPaths = s.currentPaths ∧
    (undo (clearCanvas s)).resetStack = [] ∧
    (undo (clearCanvas s)).undoStack = s.undoStack ∧
    (undo (clearCanvas s)).drawMode = s.drawMode ∧
    (undo (clearCanvas s)).isDrawing = s.isDrawing ∧
    (undo (clearCanvas s)).imageScale = s.imageScale := by
  cases hp : s.currentPaths with
  | nil => simp [clearCanvas, undo, hp]
  | cons a l => simp [clearCanvas, undo, hp]

/-- Witness for C10 at the concrete state `labeledState`. -/
theorem clearCanvas_discards_labels_witness :
    labeledState.currentTexts ≠ [] ∧
    ((clearCanvas labeledState).currentTexts = [] ∧
     (clearCanvas labeledState).resetStack = labeledState.currentPaths ∧
     (undo (clearCanvas labeledState)).currentTexts = [] ∧
     (undo (clearCanvas labeledState)).currentPaths = labeledState.currentPaths ∧
     (undo (clearCanvas labeledState)).resetStack = [] ∧
     (undo (clearCanvas labeledState)).undoStack = labeledState.undoStack ∧
     (undo (clearCanvas labeledState)).drawMode = labeledState.drawMode ∧
     (undo (clearCanvas labeledState)).isDrawing = labeledState.isDrawing ∧
     (undo (clearCanvas labeledState)).imageScale = labeledState.imageScale) :=
  ⟨by decide, clearCanvas_discards_labels labeledState (by decide)⟩

/-! ## C6: pointer down clears the undo stack, making redo a no-op -/

/-- C6: in any mode other than `none`, a `pointerDown` (which either begins a
stroke or places a label) sets `undoStack` to `[]`, and therefore a `redo()`
issued immediately afterwards takes its empty-stack early return: it leaves
the state unchanged and emits no notification. -/
theorem pointerDown_clears_undoStack_redo_noop (pr : ReactSketchCanvasProps)
    (point : Point) (now : Int) (s : ReactSketchCanvasStates)
    (h : s.drawMode ≠ CanvasMode.none) :
    (handlePointerDown pr point now s).undoStack = [] ∧
    applyOp pr Op.redo (handlePointerDown pr point now s) =
      some (handlePointerDown pr point now s, []) := by
  have hstack : (handlePointerDown pr point now s).undoStack = [] := by
    cases hm : s.drawMode <;>
      simp [handlePointerDown, isDrawingMode, hm] at h ⊢
  refine ⟨hstack, ?_⟩
  simp [applyOp, hstack]

/-- Witness for C6: pointer down in pen mode at a concrete state. -/
theorem pointerDown_clears_undoStack_redo_noop_witness :
    penModeState.drawMode ≠ CanvasMode.none ∧
    ((handlePointerDown sampleProps { x := 1, y := 1 } 5 penModeState).undoStack = [] ∧
     applyOp sampleProps Op.redo (handlePointerDown sampleProps { x := 1, y := 1 } 5 penModeState) =
       some (handlePointerDown sampleProps { x := 1, y := 1 } 5 penModeState, [])) :=
  ⟨by decide,
   pointerDown_clears_undoStack_redo_noop sampleProps { x := 1, y := 1 } 5 penModeState (by decide)⟩

/-! ## C7: sketching time -/

/-- Rewriting the source's reduce as a sum over a mapped list. -/
theorem foldl_add_map_sum {α : Type} (f : α → Int) (l : List α) (a : Int) :
    l.foldl (fun acc x => acc + f x) a = a + (l.map f).sum := by
  induction l generalizing a with
  | nil => simp
  | cons x xs ih => simp [ih, add_assoc]

/-- C7: `getSketchingTime()` rejects with the configuration error exactly
when `withTimestamp` is not enabled, and otherwise resolves with the sum
over all strokes of `endTimestamp - startTimestamp`, a missing timestamp
counting as `0`. -/
theorem getSketchingTime_spec (currentPaths : List CanvasPath) :
    getSketchingTime false currentPaths =
      Except.error "Set withTimestamp prop to get sketching time" ∧
    getSketchingTime true currentPaths =
      Except.ok ((currentPaths.map fun p =>
        p.endTimestamp.getD 0 - p.startTimestamp.getD 0).sum) := by
  refine ⟨rfl, ?_⟩
  simp [getSketchingTime, foldl_add_map_sum]

/-! ## C4: rescale then export round-trips -/

/-- Scaling the strokes twice multiplies the scale factors. -/
theorem canonicalPathsToImage_comp (ps : List CanvasPath) (a b : Rat) :
    canonicalPathsToImage (canonicalPathsToImage ps a) b =
      canonicalPathsToImage ps (a * b) := by
  simp [canonicalPathsToImage, List.map_map, Function.comp, mul_assoc]

/-- Scaling the labels twice multiplies the scale factors. -/
theorem canonicalTextsToImage_comp (ts : List CanvasText) (a b : Rat) :
    canonicalTextsToImage (canonicalTextsToImage ts a) b =
      canonicalTextsToImage ts (a * b) := by
  simp [canonicalTextsToImage, List.map_map, Function.comp, mul_assoc]

/-- Scaling the strokes by 1 is the identity. -/
theorem canonicalPathsToImage_one (ps : List CanvasPath) :
    canonicalPathsToImage ps 1 = ps := by
  have hid : (fun pt : Point => Point.mk (pt.x * 1) (pt.y * 1)) = id :=
    funext fun pt => by simp
  simp [canonicalPathsToImage, hid]

/-- Scaling the labels by 1 is the identity. -/
theorem canonicalTextsToImage_one (ts : List CanvasText) :
    canonicalTextsToImage ts 1 = ts := by
  simp [canonicalTextsToImage]

/-- C4: for every positive scale and every list of scale-1 strokes and
labels, `adjustProportion` (rescale) followed by `exportPaths` /
`exportTexts` returns exactly the original inputs: multiplying each
coordinate by the scale and later by its reciprocal round-trips. -/
theorem adjustProportion_export_roundtrip (imagescale : Rat)
    (paths : List CanvasPath) (texts : List CanvasText)
    (h : 0 < imagescale) :
    exportPaths (adjustProportion imagescale paths texts) = paths ∧
    exportTexts (adjustProportion imagescale paths texts) = texts := by
  have hs : imagescale * (1 / imagescale) = 1 := by
    field_simp
  constructor
  · show canonicalPathsToImage (canonicalPathsToImage paths imagescale) (1 / imagescale) = paths
    rw [canonicalPathsToImage_comp, hs, canonicalPathsToImage_one]
  · show canonicalTextsToImage (canonicalTextsToImage texts imagescale) (1 / imagescale) = texts
    rw [canonicalTextsToImage_comp, hs, canonicalTextsToImage_one]

/-- Witness for C4 at scale 2 with one stroke and one label. -/
theorem adjustProportion_export_roundtrip_witness :
    (0 : Rat) < 2 ∧
    (exportPaths (adjustProportion 2 [strokeA] [sampleLabel]) = [strokeA] ∧
     exportTexts (adjustProportion 2 [strokeA] [sampleLabel]) = [sampleLabel]) :=
  ⟨by norm_num,
   adjustProportion_export_roundtrip 2 [strokeA] [sampleLabel] (by norm_num)⟩

/-! ## C2: mutating operations notify onUpdate, except resetCanvas -/

/-- C2 (amended): every controller operation other than `resetCanvas` that
changes the state emits at least one `onUpdate` notification, and every
notification it emits carries the new state's strokes and labels
scale-normalized back to scale 1 (`liftUpdatedStateUp`).  `resetCanvas`
itself calls `setState(this.initialState)` without the notification
callback, so it is excluded. -/
theorem mutating_ops_notify (pr : ReactSketchCanvasProps) (op : Op)
    (s s' : ReactSketchCanvasStates) (evs : List Event)
    (hop : op ≠ Op.resetCanvas)
    (h : applyOp pr op s = some (s', evs)) :
    (s' ≠ s → evs ≠ []) ∧ ∀ e ∈ evs, e = liftUpdatedStateUp s' := by
  cases op with
  | pointerDown point now =>
      simp only [applyOp] at h
      split at h <;>
        (injection h with h1; injection h1 with ha hb; subst ha; subst hb;
         refine ⟨fun hne => ?_, ?_⟩ <;> simp_all)
  | pointerMove point =>
      simp only [applyOp] at h
      split at h
      · injection h with h1; injection h1 with ha hb; subst ha; subst hb
        refine ⟨fun hne => ?_, ?_⟩ <;> simp_all
      · split at h
        · exact absurd h (by simp)
        · injection h with h1; injection h1 with ha hb; subst ha; subst hb
          refine ⟨fun hne => ?_, ?_⟩ <;> simp_all
  | pointerUp now =>
      simp only [applyOp] at h
      split at h <;>
        (injection h with h1; injection h1 with ha hb; subst ha; subst hb;
         refine ⟨fun hne => ?_, ?_⟩ <;> simp_all)
  | textChange oldText newText =>
      simp only [applyOp] at h
      injection h with h1; injection h1 with ha hb; subst ha; subst hb
      refine ⟨fun hne => ?_, ?_⟩ <;> simp_all
  | setMode mode =>
      simp only [applyOp] at h
      injection h with h1; injection h1 with ha hb; subst ha; subst hb
      refine ⟨fun hne => ?_, ?_⟩ <;> simp_all
  | clearCanvas =>
      simp only [applyOp] at h
      injection h with h1; injection h1 with ha hb; subst ha; subst hb
      refine ⟨fun hne => ?_, ?_⟩ <;> simp_all
  | undo =>
      simp only [applyOp] at h
      injection h with h1; injection h1 with ha hb; subst ha; subst hb
      refine ⟨fun hne => ?_, ?_⟩ <;> simp_all
  | redo =>
      simp only [applyOp] at h
      split at h <;>
        (injection h with h1; injection h1 with ha hb; subst ha; subst hb;
         refine ⟨fun hne => ?_, ?_⟩ <;> simp_all)
  | resetCanvas => exact absurd rfl hop
  | adjustProportion imagescale paths texts =>
      simp only [applyOp] at h
      injection h with h1; injection h1 with ha hb; subst ha; subst hb
      refine ⟨fun hne => ?_, ?_⟩ <;> simp_all
  | loadPaths paths =>
      simp only [applyOp] at h
      injection h with h1; injection h1 with ha hb; subst ha; subst hb
      refine ⟨fun hne => ?_, ?_⟩ <;> simp_all
  | loadTexts texts =>
      simp only [applyOp] at h
      injection h with h1; injection h1 with ha hb; subst ha; subst hb
      refine ⟨fun hne => ?_, ?_⟩ <;> simp_all

/-- Counterexample to C2 as stated: `resetCanvas` mutates the state (here it
discards two strokes) yet emits no `onUpdate` notification. -/
theorem resetCanvas_mutates_without_notification :
    applyOp sampleProps Op.resetCanvas scenarioState = some (initialState, []) ∧
    initialState ≠ scenarioState :=
  ⟨rfl, by decide⟩

/-- Witness for C2 (amended) at `clearCanvas` on `scenarioState`. -/
theorem mutating_ops_notify_witness :
    Op.clearCanvas ≠ Op.resetCanvas ∧
    ((clearCanvas scenarioState ≠ scenarioState →
        [liftUpdatedStateUp (clearCanvas scenarioState)] ≠ []) ∧
      ∀ e ∈ [liftUpdatedStateUp (clearCanvas scenarioState)],
        e = liftUpdatedStateUp (clearCanvas scenarioState)) :=
  ⟨by decide,
   mutating_ops_notify sampleProps Op.clearCanvas scenarioState
     (clearCanvas scenarioState) [liftUpdatedStateUp (clearCanvas scenarioState)]
     (by decide) rfl⟩

/-! ## C3: the isDrawing invariant -/

/-- The invariant claimed by the spec: while a stroke is being drawn, the
stroke list is non-empty (so `handlePointerMove` can mutate its last
element). -/
def invDrawing (s : ReactSketchCanvasStates) : Prop :=
  s.isDrawing = true → s.currentPaths ≠ []

instance (s : ReactSketchCanvasStates) : Decidable (invDrawing s) :=
  if h : s.isDrawing = true then
    if h2 : s.currentPaths = [] then isFalse fun hi => hi h h2
    else isTrue fun _ => h2
  else isTrue fun hi => absurd hi h

/-- An operation is issued safely when `clearCanvas` and `undo` are only
invoked while no stroke is in progress. -/
def safeOp (s : ReactSketchCanvasStates) : Op → Bool
  | Op.clearCanvas => !s.isDrawing
  | Op.undo => !s.isDrawing
  | _ => true

/-- A trace is safe when every step is issued safely at the state it is
applied to. -/
def safeTrace (pr : ReactSketchCanvasProps) :
    ReactSketchCanvasStates → List Op → Bool
  | _, [] => true
  | s, op :: rest =>
      safeOp s op &&
        match applyOp pr op s with
        | Option.none => true
        | some (s', _) => safeTrace pr s' rest

/-- A safely-issued operation never throws and preserves `invDrawing`. -/
theorem applyOp_preserves_invDrawing (pr : ReactSketchCanvasProps) (op : Op)
    (s : ReactSketchCanvasStates) (hinv : invDrawing s)
    (hsafe : safeOp s op = true) :
    ∃ s' evs, applyOp pr op s = some (s', evs) ∧ invDrawing s' := by
  cases op with
  | pointerDown point now =>
      by_cases hc : isDrawingMode s = false ∧ s.drawMode = CanvasMode.none
      · exact ⟨s, [], by simp [applyOp, hc], hinv⟩
      · refine ⟨handlePointerDown pr point now s,
          [liftUpdatedStateUp (handlePointerDown pr point now s)],
          by simp [applyOp, hc], ?_⟩
        unfold handlePointerDown
        split
        · split
          · exact hinv
          · simp [invDrawing]
        · simp [invDrawing]
  | pointerMove point =>
      by_cases hd : s.isDrawing = false
      · exact ⟨s, [], by simp [applyOp, hd], hinv⟩
      · have hdt : s.isDrawing = true := by
          revert hd; cases s.isDrawing <;> simp
        have hne : s.currentPaths ≠ [] := hinv hdt
        obtain ⟨lastStroke, hlast⟩ : ∃ l, s.currentPaths.getLast? = some l := by
          cases hc : s.currentPaths.getLast? with
          | none => exact absurd (List.getLast?_eq_none_iff.mp hc) hne
          | some l => exact ⟨l, rfl⟩
        have hm : handlePointerMove point s =
            some { s with currentPaths := s.currentPaths.dropLast ++
              [{ lastStroke with paths := lastStroke.paths ++ [point] }] } := by
          simp [handlePointerMove, hd, hlast]
        refine ⟨{ s with currentPaths := s.currentPaths.dropLast ++
            [{ lastStroke with paths := lastStroke.paths ++ [point] }] },
          [liftUpdatedStateUp { s with currentPaths := s.currentPaths.dropLast ++
            [{ lastStroke with paths := lastStroke.paths ++ [point] }] }],
          by simp [applyOp, hd, hm], ?_⟩
        simp [invDrawing]
  | pointerUp now =>
      by_cases hd : s.isDrawing = false
      · exact ⟨s, [], by simp [applyOp, hd], hinv⟩
      · refine ⟨handlePointerUp pr now s,
          [liftUpdatedStateUp (handlePointerUp pr now s)],
          by simp [applyOp, hd], ?_⟩
        have hup : (handlePointerUp pr now s).isDrawing = false := by
          simp only [handlePointerUp, if_neg hd]
          split
          · rfl
          · split <;> rfl
        exact fun habs => by simp [hup] at habs
  | textChange oldText newText => exact ⟨_, _, rfl, hinv⟩
  | setMode mode => exact ⟨_, _, rfl, hinv⟩
  | clearCanvas =>
      have hd : s.isDrawing = false := by
        revert hsafe; simp [safeOp]
      exact ⟨_, _, rfl, by simp [invDrawing, clearCanvas, hd]⟩
  | undo =>
      have hd : s.isDrawing = false := by
        revert hsafe; simp [safeOp]
      refine ⟨undo s, _, rfl, ?_⟩
      unfold undo
      split
      · simp [invDrawing, hd]
      · cases hc : s.currentPaths.getLast? with
        | none => simp [invDrawing, hd]
        | some l => simp [invDrawing, hd]
  | redo =>
      by_cases hu : s.undoStack.length = 0
      · exact ⟨s, [], by simp [applyOp, hu], hinv⟩
      · refine ⟨redo s, [liftUpdatedStateUp (redo s)], by simp [applyOp, hu], ?_⟩
        unfold redo
        cases hc : s.undoStack.getLast? with
        | none => exact hinv
        | some l => simp [invDrawing]
  | resetCanvas =>
      exact ⟨_, _, rfl, by simp [invDrawing, resetCanvas, initialState]⟩
  | adjustProportion imagescale paths texts =>
      exact ⟨_, _, rfl, by simp [invDrawing, adjustProportion, initialState]⟩
  | loadPaths paths =>
      refine ⟨_, _, rfl, fun h hc => ?_⟩
      exact hinv h (List.append_eq_nil.mp hc).1
  | loadTexts texts => exact ⟨_, _, rfl, hinv⟩

/-- Helper: along a safe trace the run never throws and the invariant is
maintained. -/
theorem runOps_safe_aux (pr : ReactSketchCanvasProps) (ops : List Op)
    (s : ReactSketchCanvasStates) (hinv : invDrawing s)
    (hsafe : safeTrace pr s ops = true) :
    ∃ s', runOps pr s ops = some s' ∧ invDrawing s' := by
  induction ops generalizing s with
  | nil => exact ⟨s, rfl, hinv⟩
  | cons op rest ih =>
      have hsop : safeOp s op = true := by
        simp only [safeTrace, Bool.and_eq_true] at hsafe
        exact hsafe.1
      obtain ⟨s', evs, happ, hinv'⟩ := applyOp_preserves_invDrawing pr op s hinv hsop
      have hsafe' : safeTrace pr s' rest = true := by
        simp only [safeTrace, Bool.and_eq_true, happ] at hsafe
        exact hsafe.2
      obtain ⟨s'', hrun, hinv''⟩ := ih s' hinv' hsafe'
      exact ⟨s'', by simp [runOps, happ, hrun], hinv''⟩

/-- C3 (amended): along any sequence of controller operations in which
`clearCanvas` and `undo` are only issued while no stroke is in progress,
every reached state satisfies `invDrawing` (`isDrawing` implies a non-empty
stroke list), and in particular no `pointerMove` ever fails. -/
theorem safe_traces_preserve_invDrawing (pr : ReactSketchCanvasProps)
    (ops : List Op) (s : ReactSketchCanvasStates) (hinv : invDrawing s)
    (hsafe : safeTrace pr s ops = true) :
    runOps pr s ops ≠ Option.none ∧
    invDrawing ((runOps pr s ops).getD initialState) := by
  obtain ⟨s', hrun, hinv'⟩ := runOps_safe_aux pr ops s hinv hsafe
  rw [hrun]
  exact ⟨by simp, hinv'⟩

/-- Counterexample to C3 as stated: a `clearCanvas` issued while a stroke is
in progress leaves `isDrawing = true` with an empty stroke list, and the
next `pointerMove` throws (the run returns `Option.none`). -/
theorem pointerMove_crashes_after_clear_while_drawing :
    runOps sampleProps initialState
      [Op.setMode CanvasMode.pen, Op.pointerDown { x := 1, y := 2 } 5,
       Op.clearCanvas, Op.pointerMove { x := 3, y := 4 }] = Option.none ∧
    (runOps sampleProps initialState
      [Op.setMode CanvasMode.pen, Op.pointerDown { x := 1, y := 2 } 5,
       Op.clearCanvas]).map (fun s => (s.isDrawing, s.currentPaths)) =
      some (true, []) :=
  ⟨rfl, rfl⟩

/-- Witness for C3 (amended) on a concrete safe trace: draw a full stroke,
then clear and undo while idle. -/
theorem safe_traces_preserve_invDrawing_witness :
    invDrawing initialState ∧
    safeTrace sampleProps initialState
      [Op.setMode CanvasMode.pen, Op.pointerDown { x := 1, y := 1 } 3,
       Op.pointerMove { x := 2, y := 2 }, Op.pointerUp 9,
       Op.clearCanvas, Op.undo] = true ∧
    (runOps sampleProps initialState
        [Op.setMode CanvasMode.pen, Op.pointerDown { x := 1, y := 1 } 3,
         Op.pointerMove { x := 2, y := 2 }, Op.pointerUp 9,
         Op.clearCanvas, Op.undo] ≠ Option.none ∧
      invDrawing ((runOps sampleProps initialState
        [Op.setMode CanvasMode.pen, Op.pointerDown { x := 1, y := 1 } 3,
         Op.pointerMove { x := 2, y := 2 }, Op.pointerUp 9,
         Op.clearCanvas, Op.undo]).getD initialState)) :=
  ⟨by decide, by decide,
   safe_traces_preserve_invDrawing sampleProps
     [Op.setMode CanvasMode.pen, Op.pointerDown { x := 1, y := 1 } 3,
      Op.pointerMove { x := 2, y := 2 }, Op.pointerUp 9,
      Op.clearCanvas, Op.undo] initialState (by decide) (by decide)⟩

/-! ## The Canvas scene: stroke groups, eraser masks, export -/

/-- `eraserPaths`: the eraser strokes, in order. -/
def eraserPaths (paths : List CanvasPath) : List CanvasPath :=
  paths.filter fun path => path.drawMode == CanvasMode.eraser

/-- The body of `arrayGroup[currentGroup].push(path)` with the preceding
`if (arrayGroup[currentGroup] === undefined) arrayGroup[currentGroup] = []`:
appends `p` to the group at index `i`, creating it (and reading intermediate
array holes back as empty groups) when absent. -/
def setAtFill : List (List CanvasPath) → Nat → CanvasPath → List (List CanvasPath)
  | [], 0, p => [[p]]
  | [], i + 1, p => [] :: setAtFill [] i p
  | g :: gs, 0, p => (g ++ [p]) :: gs
  | g :: gs, i + 1, p => g :: setAtFill gs i p

/-- One step of the `paths.reduce` that builds `pathGroups`: the accumulator
pairs the mutable closure variable `currentGroup` with the group array.  A
falsy draw mode (an eraser) increments `currentGroup` and is excluded; a pen
stroke is pushed into the current group. -/
def pathGroupsStep (acc : Nat × List (List CanvasPath)) (path : CanvasPath) :
    Nat × List (List CanvasPath) :=
  if path.drawMode.truthy = false then (acc.1 + 1, acc.2)
  else (acc.1, setAtFill acc.2 acc.1 path)

/-- `pathGroups`: the reduce over `paths` starting from `currentGroup = 0`
and `[[]]`. -/
def pathGroups (paths : List CanvasPath) : List (List CanvasPath) :=
  (paths.foldl pathGroupsStep (0, [[]])).2

/-- Specification view of group `i`: the pen strokes preceded by exactly `i`
eraser strokes. -/
def penGroup : List CanvasPath → Nat → List CanvasPath
  | [], _ => []
  | p :: rest, i =>
      if p.drawMode.truthy then
        if i = 0 then p :: penGroup rest 0 else penGroup rest i
      else
        match i with
        | 0 => []
        | i + 1 => penGroup rest i

/-- The position (index into `paths`) of each eraser stroke, in order: the
entry at index `k` is the position of the eraser with eraser-order index
`k`. -/
def eraserPositions : List CanvasPath → List Nat
  | [] => []
  | p :: rest =>
      if p.drawMode.truthy then (eraserPositions rest).map (· + 1)
      else 0 :: (eraserPositions rest).map (· + 1)

/-- The positions (indices into `paths`) of the pen strokes of group `i`. -/
def penGroupPositions : List CanvasPath → Nat → List Nat
  | [], _ => []
  | p :: rest, i =>
      if p.drawMode.truthy then
        if i = 0 then 0 :: (penGroupPositions rest 0).map (· + 1)
        else (penGroupPositions rest i).map (· + 1)
      else
        match i with
        | 0 => []
        | i + 1 => (penGroupPositions rest i).map (· + 1)

/-- A placeholder stroke used as the default of out-of-range list reads. -/
def defaultPath : CanvasPath :=
  { drawMode := CanvasMode.pen
    strokeColor := ""
    strokeWidth := 0
    paths := []
    startTimestamp := Option.none
    endTimestamp := Option.none }

/-- The value of a `fill` attribute: either a reference to the background
pattern or a flat color. -/
inductive FillValue where
  | patternRef
  | color (c : String)
deriving DecidableEq, Repr

/-- The SVG scene the `Canvas` component renders: the optional background
`pattern` in `defs`, the eraser masks (each a white full-canvas rect plus
`use` references to eraser strokes, recorded here by their eraser-order
indices), the hidden group of black eraser strokes, the background rect
fill, the masked stroke groups in index order, and the label overlay. -/
structure SvgScene where
  backgroundPattern : Option String
  eraserMaskDefs : List (List Nat)
  eraserStrokes : List CanvasPath
  canvasBackgroundFill : FillValue
  strokeGroups : List (List CanvasPath)
  texts : List CanvasText
deriving DecidableEq, Repr

/-- The scene built by `Canvas`'s render method: the pattern exists iff
`backgroundImage` is a non-empty string; mask `i` holds
`Array.from(\x7b length: eraserPaths.length - i \x7d, (_, j) => j + i)`, that is
the eraser indices from `i` to the last; the background rect's fill is
`url(#...__background)` when a background image is set and `canvasColor`
otherwise; stroke group `i` is rendered with `mask=url(#...__eraser-mask-i)`. -/
def renderScene (canvasColor backgroundImage : String) (paths : List CanvasPath)
    (texts : List CanvasText) : SvgScene :=
  let erasers := eraserPaths paths
  { backgroundPattern := if backgroundImage = "" then Option.none else some backgroundImage
    eraserMaskDefs :=
      (List.range erasers.length).map fun i => List.range' i (erasers.length - i)
    eraserStrokes := erasers
    canvasBackgroundFill :=
      if backgroundImage = "" then FillValue.color canvasColor else FillValue.patternRef
    strokeGroups := pathGroups paths
    texts := texts }

/-- `exportSvg()` on the `Canvas` ref: with `exportWithBackgroundImage` the
cloned scene is returned as is; otherwise the element `#...__background`
(the pattern) is removed and the `#...__canvas-background` rect's fill is
set to `canvasColor`. -/
def exportSvg (exportWithBackgroundImage : Bool) (canvasColor : String)
    (scene : SvgScene) : SvgScene :=
  if exportWithBackgroundImage then scene
  else
    { scene with
      backgroundPattern := Option.none
      canvasBackgroundFill := FillValue.color canvasColor }

/-- The set of eraser indices whose strokes hide stroke group `i`: the
content of the mask the group references.  A group whose mask id does not
exist (the group after the last eraser) is rendered unmasked, so its set is
empty. -/
def effectiveMask (scene : SvgScene) (i : Nat) : List Nat :=
  scene.eraserMaskDefs.getD i []

/-- Modelled from the spec: the rasterization of SVG luminance masking is
not part of the sources, only the mask contents are.  Per the spec, a mask
is a white full-canvas background with the referenced eraser strokes drawn
in opaque black (white = visible, black = hidden), so the group is hidden
at a point exactly where some referenced eraser stroke covers it; `covers`
abstracts stroke geometry. -/
def groupHiddenAt (scene : SvgScene) (covers : CanvasPath → Point → Bool)
    (i : Nat) (pt : Point) : Bool :=
  (effectiveMask scene i).any fun k => covers (scene.eraserStrokes.getD k defaultPath) pt

/-! ## Characterizing the pathGroups reduce -/

/-- Reading a group after `setAtFill` appends at the target index and leaves
every other index unchanged (absent indices read as empty groups). -/
theorem setAtFill_getD (groups : List (List CanvasPath)) (i : Nat)
    (p : CanvasPath) (j : Nat) :
    (setAtFill groups i p).getD j [] =
      if j = i then groups.getD j [] ++ [p] else groups.getD j [] := by
  induction groups generalizing i j with
  | nil =>
      induction i generalizing j with
      | zero => cases j <;> simp [setAtFill]
      | succ i ih =>
          cases j with
          | zero => simp [setAtFill]
          | succ j =>
              simp only [setAtFill, List.getD_cons_succ]
              rw [ih]
              simp
  | cons g gs ihg =>
      cases i with
      | zero => cases j <;> simp [setAtFill]
      | succ i =>
          cases j with
          | zero => simp [setAtFill]
          | succ j =>
              simp only [setAtFill, List.getD_cons_succ]
              rw [ihg]
              simp

/-- The groups array built by the reduce, read at any index, equals the
groups already accumulated extended by the pen strokes of the remaining
paths whose eraser-prefix count matches. -/
theorem pathGroups_foldl (paths : List CanvasPath) (cg : Nat)
    (G : List (List CanvasPath)) (i : Nat) :
    ((paths.foldl pathGroupsStep (cg, G)).2).getD i [] =
      G.getD i [] ++ (if cg ≤ i then penGroup paths (i - cg) else []) := by
  induction paths generalizing cg G with
  | nil => simp [penGroup]
  | cons p rest ih =>
      cases ht : p.drawMode.truthy with
      | false =>
          rw [List.foldl_cons]
          simp only [pathGroupsStep, ht, if_pos rfl]
          rw [ih]
          congr 1
          by_cases h1 : cg ≤ i
          · by_cases h2 : cg + 1 ≤ i
            · have h3 : i - cg = (i - (cg + 1)) + 1 := by omega
              simp [h1, h2, h3, penGroup, ht]
            · have h3 : i = cg := by omega
              subst h3
              simp [h1, h2, penGroup, ht]
          · have h2 : ¬ (cg + 1 ≤ i) := by omega
            simp [h1, h2]
      | true =>
          rw [List.foldl_cons]
          have hstep : pathGroupsStep (cg, G) p = (cg, setAtFill G cg p) := by
            simp [pathGroupsStep, ht]
          rw [hstep, ih, setAtFill_getD]
          by_cases h1 : cg ≤ i
          · by_cases hic : i = cg
            · subst hic
              simp [h1, penGroup, ht]
            · have hne : i - cg ≠ 0 := by omega
              simp [h1, hic, penGroup, ht, hne]
          · have hic : i ≠ cg := by omega
            simp [h1, hic]

/-- `pathGroups`, read at index `i`, is exactly the pen strokes preceded by
`i` eraser strokes. -/
theorem pathGroups_getD (paths : List CanvasPath) (i : Nat) :
    (pathGroups paths).getD i [] = penGroup paths i := by
  rw [pathGroups, pathGroups_foldl]
  cases i <;> simp

/-! ## Positions of pens and erasers -/

/-- Reading a shifted position list. -/
theorem getD_map_add_one (E : List Nat) (k : Nat) (hk : k < E.length) :
    (E.map (· + 1)).getD k 0 = E.getD k 0 + 1 := by
  induction E generalizing k with
  | nil => simp at hk
  | cons e es ih => cases k <;> simp_all

/-- A pen stroke of group `i` occurs before the eraser with eraser-order
index `k` exactly when `i ≤ k`: group `i` precedes erasers `i` and later and
follows erasers before `i`. -/
theorem penGroup_before_eraser (paths : List CanvasPath) (i j k : Nat)
    (hj : j ∈ penGroupPositions paths i)
    (hk : k < (eraserPositions paths).length) :
    i ≤ k ↔ j < (eraserPositions paths).getD k 0 := by
  induction paths generalizing i j k with
  | nil => simp [penGroupPositions] at hj
  | cons p rest ih =>
      cases ht : p.drawMode.truthy with
      | true =>
          have hE : eraserPositions (p :: rest) = (eraserPositions rest).map (· + 1) := by
            simp [eraserPositions, ht]
          rw [hE] at hk ⊢
          rw [List.length_map] at hk
          rw [getD_map_add_one _ _ hk]
          by_cases hi : i = 0
          · subst hi
            have hj' : j = 0 ∨ ∃ j', j' ∈ penGroupPositions rest 0 ∧ j' + 1 = j := by
              simpa [penGroupPositions, ht] using hj
            rcases hj' with rfl | ⟨j', hj', rfl⟩
            · simp
            · have h2 := ih 0 j' k hj' hk
              have h3 := h2.mp (Nat.zero_le k)
              constructor
              · intro _; omega
              · intro _; exact Nat.zero_le k
          · have hj' : ∃ j', j' ∈ penGroupPositions rest i ∧ j' + 1 = j := by
              simpa [penGroupPositions, ht, hi] using hj
            rcases hj' with ⟨j', hj', rfl⟩
            have h2 := ih i j' k hj' hk
            omega
      | false =>
          have hE : eraserPositions (p :: rest) = 0 :: (eraserPositions rest).map (· + 1) := by
            simp [eraserPositions, ht]
          rw [hE] at hk ⊢
          cases i with
          | zero => simp [penGroupPositions, ht] at hj
          | succ i' =>
              have hj' : ∃ j', j' ∈ penGroupPositions rest i' ∧ j' + 1 = j := by
                simpa [penGroupPositions, ht] using hj
              rcases hj' with ⟨j', hj', rfl⟩
              cases k with
              | zero => simp
              | succ k' =>
                  have hk' : k' < (eraserPositions rest).length := by simpa using hk
                  rw [List.getD_cons_succ, getD_map_add_one _ _ hk']
                  have h2 := ih i' j' k' hj' hk'
                  omega

/-- The strokes of group `i` are the strokes of `paths` at the positions
`penGroupPositions` computes. -/
theorem penGroup_eq_positions_map (paths : List CanvasPath) (i : Nat) :
    penGroup paths i =
      (penGroupPositions paths i).map fun j => paths.getD j defaultPath := by
  induction paths generalizing i with
  | nil => simp [penGroup, penGroupPositions]
  | cons p rest ih =>
      have hmap : ∀ (xs : List Nat),
          (xs.map (· + 1)).map (fun j => (p :: rest).getD j defaultPath) =
            xs.map fun j => rest.getD j defaultPath := by
        intro xs
        rw [List.map_map]
        exact List.map_congr_left fun a _ => rfl
      cases ht : p.drawMode.truthy with
      | true =>
          by_cases hi : i = 0
          · subst hi
            simp [penGroup, penGroupPositions, ht, hmap, ih]
          · simp [penGroup, penGroupPositions, ht, hi, hmap, ih]
      | false =>
          cases i with
          | zero => simp [penGroup, penGroupPositions, ht]
          | succ i' => simp [penGroup, penGroupPositions, ht, hmap, ih]

/-- The mask set stroke group `i` is rendered under: empty when the group's
mask id does not exist, otherwise the eraser indices from `i` to the last. -/
theorem effectiveMask_renderScene (canvasColor backgroundImage : String)
    (paths : List CanvasPath) (texts : List CanvasText) (i : Nat) :
    effectiveMask (renderScene canvasColor backgroundImage paths texts) i =
      if i < (eraserPaths paths).length then
        List.range' i ((eraserPaths paths).length - i)
      else [] := by
  by_cases hi : i < (eraserPaths paths).length
  · simp only [effectiveMask, renderScene, if_pos hi]
    rw [List.getD_eq_getElem?_getD, List.getElem?_map, List.getElem?_range hi]
    rfl
  · simp only [effectiveMask, renderScene, if_neg hi]
    rw [List.getD_eq_getElem?_getD, List.getElem?_map]
    rw [List.getElem?_eq_none (by simpa using Nat.le_of_not_lt hi)]
    rfl

/-! ## C5: cumulative eraser masking -/

/-- C5: for every stroke list, stroke group `i` of the rendered scene is
masked by exactly the eraser strokes with eraser-order index `i` through
the last: membership in its effective mask set is `i ≤ k < #erasers`; the
group is hidden at a point iff some such eraser covers the point; group `i`
consists exactly of the pen strokes at the positions with `i` preceding
erasers; and an eraser's order index is at least `i` iff it occurs later in
the stroke order than any such pen stroke — so a group is hidden only under
erasers drawn after it and never under earlier ones. -/
theorem eraser_mask_composition (canvasColor backgroundImage : String)
    (paths : List CanvasPath) (texts : List CanvasText)
    (covers : CanvasPath → Point → Bool) (pt : Point) (i : Nat) :
    (∀ k, k ∈ effectiveMask (renderScene canvasColor backgroundImage paths texts) i ↔
        i ≤ k ∧ k < (eraserPaths paths).length) ∧
    (groupHiddenAt (renderScene canvasColor backgroundImage paths texts) covers i pt = true ↔
        ∃ k, i ≤ k ∧ k < (eraserPaths paths).length ∧
          covers ((eraserPaths paths).getD k defaultPath) pt = true) ∧
    ((renderScene canvasColor backgroundImage paths texts).strokeGroups.getD i [] =
        penGroup paths i) ∧
    (penGroup paths i = (penGroupPositions paths i).map fun j => paths.getD j defaultPath) ∧
    (∀ j ∈ penGroupPositions paths i, ∀ k, k < (eraserPositions paths).length →
        (i ≤ k ↔ j < (eraserPositions paths).getD k 0)) := by
  have hmask : ∀ k,
      k ∈ effectiveMask (renderScene canvasColor backgroundImage paths texts) i ↔
        i ≤ k ∧ k < (eraserPaths paths).length := by
    intro k
    rw [effectiveMask_renderScene]
    by_cases hi : i < (eraserPaths paths).length
    · rw [if_pos hi, List.mem_range'_1]
      omega
    · rw [if_neg hi]
      simp
      omega
  refine ⟨hmask, ?_, ?_, penGroup_eq_positions_map paths i,
    fun j hj k hk => penGroup_before_eraser paths i j k hj hk⟩
  · rw [groupHiddenAt, List.any_eq_true]
    constructor
    · rintro ⟨k, hkmem, hcov⟩
      have hk := (hmask k).mp hkmem
      exact ⟨k, hk.1, hk.2, hcov⟩
    · rintro ⟨k, h1, h2, hcov⟩
      exact ⟨k, (hmask k).mpr ⟨h1, h2⟩, hcov⟩
  · exact pathGroups_getD paths i

/-- Witness for C5 on the scene `[strokeA (pen), strokeB (eraser)]` with an
always-covering geometry at group 0. -/
theorem eraser_mask_composition_witness :
    (0 ∈ penGroupPositions [strokeA, strokeB] 0 ∧
      0 < (eraserPositions [strokeA, strokeB]).length) ∧
    ((0 : Nat) ≤ 0 ↔ 0 < (eraserPositions [strokeA, strokeB]).getD 0 0) ∧
    groupHiddenAt (renderScene "white" "" [strokeA, strokeB] [])
      (fun _ _ => true) 0 { x := 1, y := 1 } = true :=
  ⟨⟨by decide, by decide⟩,
   (eraser_mask_composition "white" "" [strokeA, strokeB] []
       (fun _ _ => true) { x := 1, y := 1 } 0).2.2.2.2 0 (by decide) 0 (by decide),
   ((eraser_mask_composition "white" "" [strokeA, strokeB] []
       (fun _ _ => true) { x := 1, y := 1 } 0).2.1).mpr
     ⟨0, Nat.le_refl 0, by decide, rfl⟩⟩

/-! ## C9: SVG export without the background image -/

/-- C9: for every scene, `exportSvg` with background-image inclusion
disabled yields a scene with no background pattern element, and the
background rect's fill equals the configured flat canvas color exactly —
also when the live scene had a background image and its fill was the
pattern reference. -/
theorem exportSvg_flat_background (canvasColor backgroundImage : String)
    (paths : List CanvasPath) (texts : List CanvasText) :
    (exportSvg false canvasColor
        (renderScene canvasColor backgroundImage paths texts)).backgroundPattern =
      Option.none ∧
    (exportSvg false canvasColor
        (renderScene canvasColor backgroundImage paths texts)).canvasBackgroundFill =
      FillValue.color canvasColor := by
  simp [exportSvg]

/-! ## Canvas pointer handling and the pointer-type filter -/

/-- The fields of a DOM pointer event that the `Canvas` handlers read. -/
structure PointerEvent where
  pointerType : String
  button : Nat
  pageX : Rat
  pageY : Rat
  targetNodeName : String
deriving DecidableEq, Repr

/-- The layout quantities `getCoordinates` reads: the canvas's bounding
rect origin and the window scroll offsets. -/
structure CanvasEnv where
  boundLeft : Rat
  boundTop : Rat
  scrollX : Rat
  scrollY : Rat
deriving DecidableEq, Repr

/-- `getCoordinates(pointerEvent)` for a mounted canvas: the event position
relative to the canvas's bounding rect. -/
def getCoordinates (env : CanvasEnv) (event : PointerEvent) : Point :=
  { x := event.pageX - env.boundLeft - env.scrollX
    y := event.pageY - env.boundTop - env.scrollY }

/-- `Canvas`'s `handlePointerDown`: first assigns `lastMouseEvent.current =
event` (read later by `getPathAtCurrentPoint`, the hit test), then returns
early on text-element targets while not drawing, on a pointer type other
than the configured one, and on a non-primary mouse button; otherwise it
invokes `onPointerDown` with the mapped point.  Result: the new
`lastMouseEvent` and the point passed to the controller, if any. -/
def canvasHandlePointerDown (allowOnlyPointerType : String) (isDrawing : Bool)
    (env : CanvasEnv) (event : PointerEvent) :
    Option PointerEvent × Option Point :=
  let last' := some event
  if isDrawing = false ∧ (event.targetNodeName = "text" ∨ event.targetNodeName = "INPUT") then
    (last', Option.none)
  else if allowOnlyPointerType ≠ "all" ∧ event.pointerType ≠ allowOnlyPointerType then
    (last', Option.none)
  else if event.pointerType = "mouse" ∧ event.button ≠ 0 then
    (last', Option.none)
  else (last', some (getCoordinates env event))

/-- `Canvas`'s `handlePointerMove`: assigns `lastMouseEvent.current = event`,
returns early when not drawing or on a filtered pointer type, otherwise
invokes `onPointerMove` with the mapped point. -/
def canvasHandlePointerMove (allowOnlyPointerType : String) (isDrawing : Bool)
    (env : CanvasEnv) (event : PointerEvent) :
    Option PointerEvent × Option Point :=
  let last' := some event
  if isDrawing = false then (last', Option.none)
  else if allowOnlyPointerType ≠ "all" ∧ event.pointerType ≠ allowOnlyPointerType then
    (last', Option.none)
  else (last', some (getCoordinates env event))

/-- `Canvas`'s `handlePointerUp`: returns before touching `lastMouseEvent`
on a non-primary mouse button; otherwise assigns `lastMouseEvent.current =
event`, then returns early on a filtered pointer type, otherwise invokes
`onPointerUp()`.  The boolean reports whether the controller was invoked. -/
def canvasHandlePointerUp (allowOnlyPointerType : String)
    (lastMouseEvent : Option PointerEvent) (event : PointerEvent) :
    Option PointerEvent × Bool :=
  if event.pointerType = "mouse" ∧ event.button ≠ 0 then (lastMouseEvent, false)
  else
    let last' := some event
    if allowOnlyPointerType ≠ "all" ∧ event.pointerType ≠ allowOnlyPointerType then
      (last', false)
    else (last', true)

/-- A pointer-down event processed end to end: the `Canvas` handler followed,
when it invokes the callback, by the controller's `handlePointerDown`.
Yields the new `lastMouseEvent`, the new controller state and the emitted
notifications; `Option.none` models a thrown error. -/
def systemPointerDown (pr : ReactSketchCanvasProps) (allowOnlyPointerType : String)
    (env : CanvasEnv) (s : ReactSketchCanvasStates) (event : PointerEvent)
    (now : Int) :
    Option (Option PointerEvent × ReactSketchCanvasStates × List Event) :=
  match canvasHandlePointerDown allowOnlyPointerType s.isDrawing env event with
  | (last', Option.none) => some (last', s, [])
  | (last', some point) =>
      match applyOp pr (Op.pointerDown point now) s with
      | Option.none => Option.none
      | some (s', evs) => some (last', s', evs)

/-- A pointer-move event processed end to end. -/
def systemPointerMove (pr : ReactSketchCanvasProps) (allowOnlyPointerType : String)
    (env : CanvasEnv) (s : ReactSketchCanvasStates) (event : PointerEvent) :
    Option (Option PointerEvent × ReactSketchCanvasStates × List Event) :=
  match canvasHandlePointerMove allowOnlyPointerType s.isDrawing env event with
  | (last', Option.none) => some (last', s, [])
  | (last', some point) =>
      match applyOp pr (Op.pointerMove point) s with
      | Option.none => Option.none
      | some (s', evs) => some (last', s', evs)

/-- A pointer-up event processed end to end. -/
def systemPointerUp (pr : ReactSketchCanvasProps) (allowOnlyPointerType : String)
    (lastMouseEvent : Option PointerEvent) (s : ReactSketchCanvasStates)
    (event : PointerEvent) (now : Int) :
    Option (Option PointerEvent × ReactSketchCanvasStates × List Event) :=
  match canvasHandlePointerUp allowOnlyPointerType lastMouseEvent event with
  | (last', false) => some (last', s, [])
  | (last', true) =>
      match applyOp pr (Op.pointerUp now) s with
      | Option.none => Option.none
      | some (s', evs) => some (last', s', evs)

/-! ## C8: events of a filtered pointer type -/

/-- C8 (amended): with a restricted pointer type configured, a pointer-down,
pointer-move or pointer-up event of any other pointer type leaves the
controller state unchanged and emits no notification — but the recorded
last pointer position (`lastMouseEvent`, read by the hit test) is
overwritten with the filtered event: always for down and move, and for up
except when the event is a non-primary mouse button release. -/
theorem pointer_type_filter (pr : ReactSketchCanvasProps)
    (allowOnlyPointerType : String) (env : CanvasEnv)
    (lastMouseEvent : Option PointerEvent) (s : ReactSketchCanvasStates)
    (event : PointerEvent) (now : Int)
    (hallow : allowOnlyPointerType ≠ "all")
    (htype : event.pointerType ≠ allowOnlyPointerType) :
    systemPointerDown pr allowOnlyPointerType env s event now =
      some (some event, s, []) ∧
    systemPointerMove pr allowOnlyPointerType env s event =
      some (some event, s, []) ∧
    systemPointerUp pr allowOnlyPointerType lastMouseEvent s event now =
      some ((if event.pointerType = "mouse" ∧ event.button ≠ 0
             then lastMouseEvent else some event), s, []) := by
  refine ⟨?_, ?_, ?_⟩
  · by_cases hc : s.isDrawing = false ∧
        (event.targetNodeName = "text" ∨ event.targetNodeName = "INPUT")
    · simp [systemPointerDown, canvasHandlePointerDown, hc]
    · simp [systemPointerDown, canvasHandlePointerDown, hc, hallow, htype]
  · by_cases hd : s.isDrawing = false
    · simp [systemPointerMove, canvasHandlePointerMove, hd]
    · simp [systemPointerMove, canvasHandlePointerMove, hd, hallow, htype]
  · by_cases hm : event.pointerType = "mouse" ∧ event.button ≠ 0
    · simp [systemPointerUp, canvasHandlePointerUp, hm]
    · simp [systemPointerUp, canvasHandlePointerUp, hm, hallow, htype]

/-- A touch event with a primary button and a plain target. -/
def touchEvent : PointerEvent :=
  { pointerType := "touch", button := 0, pageX := 10, pageY := 20, targetNodeName := "svg" }

/-- A trivial layout environment. -/
def env0 : CanvasEnv :=
  { boundLeft := 0, boundTop := 0, scrollX := 0, scrollY := 0 }

/-- Counterexample to C8 as stated: with `allowOnlyPointerType = "mouse"`, a
touch pointer-down is filtered (no state change, no notification) but the
recorded last pointer position changes from `Option.none` to the filtered
event, because the handler assigns `lastMouseEvent.current` before the
pointer-type check. -/
theorem filtered_event_updates_lastMouseEvent :
    systemPointerDown sampleProps "mouse" env0 initialState touchEvent 5 =
      some (some touchEvent, initialState, []) ∧
    some touchEvent ≠ (Option.none : Option PointerEvent) :=
  ⟨rfl, by simp⟩

/-- Witness for C8 (amended) on a touch event against a mouse-only filter. -/
theorem pointer_type_filter_witness :
    ("mouse" : String) ≠ "all" ∧ touchEvent.pointerType ≠ "mouse" ∧
    (systemPointerDown sampleProps "mouse" env0 initialState touchEvent 5 =
        some (some touchEvent, initialState, []) ∧
      systemPointerMove sampleProps "mouse" env0 initialState touchEvent =
        some (some touchEvent, initialState, []) ∧
      systemPointerUp sampleProps "mouse" Option.none initialState touchEvent 5 =
        some ((if touchEvent.pointerType = "mouse" ∧ touchEvent.button ≠ 0
               then Option.none else some touchEvent), initialState, [])) :=
  ⟨by decide, by decide,
   pointer_type_filter sampleProps "mouse" env0 Option.none initialState
     touchEvent 5 (by decide) (by decide)⟩
